import Mathlib

/-!
# Verification of the youtube-transcript-summarizer core pipeline

Shallow embedding of `src/youtube.ts`: the chunking algorithm, the retry
governor, the compression wrappers, the identity resolver regexes, the
SQLite-backed cache store and the `getOrCreateTranscript` acquisition flow.
External collaborators (the network, yt-dlp, the whisper transcriber, the
LLM) are modelled as an explicit environment of outcomes; the database is
explicit state; the functions are translated statement by statement from
the TypeScript source.
-/

namespace YTS

/-! ## JavaScript string helpers -/

/-- JS `\s` whitespace (the ASCII part; Unicode spaces do not occur in the
inputs the claims are about). -/
def jsWs (c : Char) : Bool :=
  c == ' ' || c == '\t' || c == '\n' || c == '\r' || c == '\x0b' || c == '\x0c'

mutual

/-- State of `String.prototype.split(/\s+/)` while inside a token:
`cur` holds the reversed characters of the token read so far. -/
def splitWsGo : List Char → List Char → List String
  | [], cur => [String.mk cur.reverse]
  | c :: cs, cur =>
    if jsWs c then String.mk cur.reverse :: splitWsSkip cs
    else splitWsGo cs (c :: cur)

/-- State of `String.prototype.split(/\s+/)` while inside a whitespace run
(the run is one separator match, however long). -/
def splitWsSkip : List Char → List String
  | [] => [""]
  | c :: cs => if jsWs c then splitWsSkip cs else splitWsGo cs [c]

end

/-- JS `transcript.split(/\s+/)`: pieces between maximal whitespace runs,
including the empty leading/trailing pieces JS produces when the string
starts or ends with whitespace, and `[""]` on the empty string. -/
def splitWs (s : String) : List String :=
  splitWsGo s.data []

/-- Does `l` start with `pat`? (helper for JS `String.prototype.includes`). -/
def listStartsWith : List Char → List Char → Bool
  | _, [] => true
  | [], _ :: _ => false
  | c :: cs, p :: ps => c == p && listStartsWith cs ps

/-- Does `pat` occur as a contiguous run inside `l`? -/
def listHasInfix : List Char → List Char → Bool
  | [], pat => pat.isEmpty
  | c :: cs, pat => listStartsWith (c :: cs) pat || listHasInfix cs pat

/-- JS `s.includes(pat)`. -/
def strIncludes (s pat : String) : Bool :=
  listHasInfix s.data pat.data

/-! ## Compression (`zip` / `unzip`, youtube.ts lines 10-19)

`zip` is `Bun.gzipSync(new TextEncoder().encode(txt))` and `unzip` is
`new TextDecoder().decode(Bun.gunzipSync(blob))`.  `TextEncoder` /
`TextDecoder` are the UTF-8 codec and are modelled as real UTF-8 on
codepoints.  `Bun.gzipSync` / `Bun.gunzipSync` are the external gzip
implementation shipped with the runtime, not repository code. -/

/-- UTF-8 encoding of one unicode scalar value (what `TextEncoder` emits
per codepoint). -/
def utf8EncodeChar (n : Nat) : List Nat :=
  if n < 0x80 then [n]
  else if n < 0x800 then [0xC0 + n / 0x40, 0x80 + n % 0x40]
  else if n < 0x10000 then
    [0xE0 + n / 0x1000, 0x80 + (n / 0x40) % 0x40, 0x80 + n % 0x40]
  else
    [0xF0 + n / 0x40000, 0x80 + (n / 0x1000) % 0x40,
     0x80 + (n / 0x40) % 0x40, 0x80 + n % 0x40]

/-- UTF-8 decoding of a byte list (what `TextDecoder` does); the byte count
per codepoint is driven by the leading byte, mirroring the encoder. -/
def utf8DecodeList : List Nat → List Char
  | [] => []
  | b :: bs =>
    if b < 0x80 then Char.ofNat b :: utf8DecodeList bs
    else if b < 0xE0 then
      Char.ofNat ((b - 0xC0) * 0x40 + (bs.headD 0 - 0x80)) :: utf8DecodeList (bs.drop 1)
    else if b < 0xF0 then
      Char.ofNat ((b - 0xE0) * 0x1000 + (bs.headD 0 - 0x80) * 0x40 +
        ((bs.drop 1).headD 0 - 0x80)) :: utf8DecodeList (bs.drop 2)
    else
      Char.ofNat ((b - 0xF0) * 0x40000 + (bs.headD 0 - 0x80) * 0x1000 +
        ((bs.drop 1).headD 0 - 0x80) * 0x40 + ((bs.drop 2).headD 0 - 0x80)) ::
        utf8DecodeList (bs.drop 3)
termination_by l => l.length
decreasing_by all_goals (simp only [List.length_drop, List.length_cons]; omega)

/-- `new TextEncoder().encode(s)`: UTF-8 bytes of `s`. -/
def textEncode (s : String) : List Nat :=
  (s.data.map (fun c => utf8EncodeChar c.toNat)).flatten

/-- `new TextDecoder().decode(bs)`. -/
def textDecode (bs : List Nat) : String :=
  String.mk (utf8DecodeList bs)

/-- Modelled from the spec: `Bun.gzipSync` is the runtime's external gzip
compressor (not repository code).  The spec requires only that the
compress→decompress round trip is byte-for-byte lossless, so the codec is
modelled as a header-prefixed identity encoding carrying that property. -/
def gzipSync (bs : List Nat) : List Nat :=
  0x1f :: 0x8b :: 0x08 :: bs

/-- Modelled from the spec: `Bun.gunzipSync`, inverse of `gzipSync`. -/
def gunzipSync (bs : List Nat) : List Nat :=
  bs.drop 3

/-- youtube.ts lines 10-13. -/
def zip (txt : String) : List Nat :=
  gzipSync (textEncode txt)

/-- youtube.ts lines 15-19. -/
def unzip (bs : List Nat) : String :=
  textDecode (gunzipSync bs)

/-! ## Chunked summarizer word splitting (youtube.ts lines 420-438) -/

def MAX_WORDS_PER_CHUNK : Nat := 15000
def CHUNK_OVERLAP_WORDS : Nat := 200

/-- The `while (start < words.length)` loop of `chunkTranscript`, with a fuel
bound: `none` means the loop has not finished within `fuel` iterations.
Body order follows the source: compute `end`, push the slice, step `start`
to `end - CHUNK_OVERLAP_WORDS`, and `break` when `start >= words.length`. -/
def chunkLoop (words : List String) : Nat → Nat → List String → Option (List String)
  | 0, _, _ => none
  | fuel + 1, start, chunks =>
    if start < words.length then
      let e := min (start + MAX_WORDS_PER_CHUNK) words.length
      let chunks' := chunks ++ [" ".intercalate ((words.drop start).take (e - start))]
      let start' := e - CHUNK_OVERLAP_WORDS
      if start' ≥ words.length then some chunks'
      else chunkLoop words fuel start' chunks'
    else some chunks

/-- youtube.ts `chunkTranscript`, with the loop given `fuel` iterations. -/
def chunkTranscript (fuel : Nat) (transcript : String) : Option (List String) :=
  let words := splitWs transcript
  if words.length ≤ MAX_WORDS_PER_CHUNK then some [transcript]
  else chunkLoop words fuel 0 []

/-- `n + 1` copies of the word `w` separated by single spaces, as characters
(concrete transcripts for the chunking claims). -/
def wRep : Nat → List Char
  | 0 => ['w']
  | n + 1 => 'w' :: ' ' :: wRep n

/-- A transcript of exactly 15001 whitespace-separated words. -/
def t15001 : String := String.mk (wRep 15000)

/-- A transcript of exactly 20000 whitespace-separated words. -/
def t20000 : String := String.mk (wRep 19999)

/-! ## Identity resolver (youtube.ts lines 114-117 and 271-274)

The two regexes are modelled as leftmost-match scans, mirroring the JS
regex engine: at each position try the pattern; the first position where
it matches wins. -/

/-- The character class `[A-Za-z0-9_-]` of the video-id regex. -/
def isIdChar (c : Char) : Bool :=
  c.isAlphanum || c == '_' || c == '-'

/-- `[A-Za-z0-9_-]{11}` at the current position: exactly 11 class
characters must follow. -/
def take11 (cs : List Char) : Option String :=
  let t := cs.take 11
  if t.length = 11 && t.all isIdChar then some (String.mk t) else none

/-- One attempt of `(?:v=|\/)([A-Za-z0-9_-]{11})` at the current position. -/
def vidMatchAt : List Char → Option String
  | 'v' :: '=' :: rest => take11 rest
  | '/' :: rest => take11 rest
  | _ => none

/-- Leftmost-match driver: try `f` at every position, left to right. -/
def scanFirst (f : List Char → Option String) : List Char → Option String
  | [] => f []
  | c :: cs =>
    match f (c :: cs) with
    | some r => some r
    | none => scanFirst f cs

/-- youtube.ts `getVideoId`: `url.match(/(?:v=|\/)([A-Za-z0-9_-]{11})/)`,
returning the captured group or `""` when there is no match. -/
def getVideoId (url : String) : String :=
  match scanFirst vidMatchAt url.data with
  | some s => s
  | none => ""

/-- One attempt of `/\/id(\d+)/` at the current position: `/id` followed by
a maximal nonempty digit run. -/
def idMatchAt : List Char → Option String
  | '/' :: 'i' :: 'd' :: rest =>
    let ds := rest.takeWhile Char.isDigit
    if ds.isEmpty then none else some (String.mk ds)
  | _ => none

/-- `url.match(/\/id(\d+)/)?.[1]`: the podcast feed identifier. -/
def urlIdMatch (url : String) : Option String :=
  scanFirst idMatchAt url.data

/-- One attempt of `/[?&]i=(\d+)/` at the current position. -/
def epMatchAt : List Char → Option String
  | c :: 'i' :: '=' :: rest =>
    if c == '?' || c == '&' then
      let ds := rest.takeWhile Char.isDigit
      if ds.isEmpty then none else some (String.mk ds)
    else none
  | _ => none

/-- `url.match(/[?&]i=(\d+)/)?.[1] ?? ""`: the episode identifier. -/
def urlEpisodeMatch (url : String) : String :=
  match scanFirst epMatchAt url.data with
  | some s => s
  | none => ""

/-! ## Retry governor (youtube.ts lines 379-418) -/

/-- The shape of a caught JS error as `retryWithBackoff` inspects it:
`message`, optional `status` / `statusCode`, optional `cause.message`. -/
structure JsError where
  message : String
  status : Option Nat
  statusCode : Option Nat
  causeMessage : Option String
deriving DecidableEq

/-- youtube.ts lines 392-398: the rate-limit classification. -/
def isRateLimitError (e : JsError) : Bool :=
  strIncludes e.message "Too Many Requests" ||
  strIncludes e.message "429" ||
  strIncludes e.message "Rate limit" ||
  e.status == some 429 ||
  e.statusCode == some 429

/-- youtube.ts line 402: `err?.cause?.message || err?.message || String(err)`
(JS `||` skips empty strings; `String(err)` on an `Error` renders
`"Error: <message>"`). -/
def errorDetails (e : JsError) : String :=
  match e.causeMessage with
  | some c =>
    if c ≠ "" then c
    else if e.message ≠ "" then e.message
    else "Error"
  | none =>
    if e.message ≠ "" then e.message
    else "Error"

/-- What `retryWithBackoff` can throw. -/
inductive RetryError
  | wrapped (details : String)
  | raw (e : JsError)
  | retryFailed
deriving DecidableEq

/-- youtube.ts line 417: the statement after the loop,
`throw lastError || new Error("Retry failed")` (reachable only when
`maxRetries = 0`, since every in-loop failure path either retries or
throws). -/
def retryExhausted (lastErr : Option JsError) : Except RetryError α × Nat :=
  match lastErr with
  | some e => (.error (.raw e), 0)
  | none => (.error .retryFailed, 0)

/-- The `for (let attempt = 0; ...)` loop of `retryWithBackoff`, from a given
attempt index.  The wrapped operation is an oracle giving each attempt's
outcome; the pair's second component counts how many times the operation
was invoked.  The backoff sleep has no observable effect here. -/
def retryFromAttempt (op : Nat → Except JsError α) (maxRetries attempt : Nat)
    (lastErr : Option JsError) : Except RetryError α × Nat :=
  if _h : attempt < maxRetries then
    match op attempt with
    | .ok v => (.ok v, 1)
    | .error e =>
      if !isRateLimitError e || attempt == maxRetries - 1 then
        (.error (.wrapped ("Gemini API Error: " ++ errorDetails e)), 1)
      else
        let r := retryFromAttempt op maxRetries (attempt + 1) (some e)
        (r.1, r.2 + 1)
  else retryExhausted lastErr
termination_by maxRetries - attempt
decreasing_by omega

/-- youtube.ts `retryWithBackoff fn maxRetries` (result, number of
invocations of `fn`). -/
def retryWithBackoff (op : Nat → Except JsError α) (maxRetries : Nat) :
    Except RetryError α × Nat :=
  retryFromAttempt op maxRetries 0 none

/-! ## VTT post-processing (youtube.ts lines 56-73) -/

/-- JS `raw.split(/\r?\n/)`: separators are `\n` or `\r\n` (a lone `\r` is
not a separator). -/
def splitLinesGo : List Char → List Char → List String
  | [], cur => [String.mk cur.reverse]
  | '\r' :: '\n' :: cs, cur => String.mk cur.reverse :: splitLinesGo cs []
  | '\n' :: cs, cur => String.mk cur.reverse :: splitLinesGo cs []
  | c :: cs, cur => splitLinesGo cs (c :: cur)

def splitLines (s : String) : List String :=
  splitLinesGo s.data []

/-- The filter of youtube.ts lines 62-68: keep a line when it is truthy
(nonempty), does not start with `WEBVTT`, is not a cue-index line
(`/^\d+$/`) and is not a timestamp line (contains `-->`). -/
def vttLineKept (line : String) : Bool :=
  line ≠ "" &&
  !listStartsWith line.data "WEBVTT".data &&
  !(line ≠ "" && line.data.all Char.isDigit) &&
  !strIncludes line "-->"

mutual

/-- `replace(/\s+/g, " ")`, outside a whitespace run. -/
def collapseWsGo : List Char → List Char
  | [] => []
  | c :: cs => if jsWs c then ' ' :: collapseWsSkip cs else c :: collapseWsGo cs

/-- `replace(/\s+/g, " ")`, inside a whitespace run already replaced. -/
def collapseWsSkip : List Char → List Char
  | [] => []
  | c :: cs => if jsWs c then collapseWsSkip cs else c :: collapseWsGo cs

end

/-- JS `String.prototype.trim()`. -/
def jsTrim (s : String) : String :=
  String.mk (((s.data.dropWhile jsWs).reverse.dropWhile jsWs).reverse)

/-- youtube.ts lines 60-71: VTT → plain text (filter lines, join with
spaces, collapse whitespace, trim). -/
def vttToText (raw : String) : String :=
  jsTrim (String.mk (collapseWsGo
    (" ".intercalate ((splitLines raw).filter vttLineKept)).data))

/-! ## Cache store and acquisition flow (youtube.ts lines 151-372)

The SQLite `content` table is a list of rows; external effects (yt-dlp,
the oEmbed title endpoint, the transcriber, the summarizer, the podcast
directory/feed) are an environment of outcomes, and every external
invocation is recorded in an event log. -/

/-- One row of the `content` table (`created_at` is irrelevant to the
claims and omitted). -/
structure ContentRow where
  content_id : String
  content_type : String
  title : String
  author : String
  audio_url : Option String
  transcript : List Nat
  summary : String
deriving DecidableEq

abbrev DB := List ContentRow

/-- The value found in the `transcript` field of a returned `ContentData`
object: the video hit path and the fresh paths put a decompressed string
there, the podcast hit path leaves the stored blob in place. -/
inductive TVal
  | blob (b : List Nat)
  | str (s : String)
deriving DecidableEq

/-- The `ContentData` object `getOrCreateTranscript` resolves with. -/
structure ContentData where
  content_id : String
  content_type : String
  title : String
  author : String
  audio_url : Option String
  transcript : TVal
  summary : String
deriving DecidableEq

/-- External invocations performed during a run. -/
inductive Event
  | titleFetch (videoId : String)
  | captionFetch (videoId : String)
  | transcribe (locator : String)
  | podcastResolve
  | rssTranscriptFetch
  | summarizeCall
  | dbInsert (contentId : String)
deriving DecidableEq

/-- The events that belong to the acquisition chain / summarization (as
against cache reads and podcast URL resolution). -/
def isAcquisitionEvent : Event → Bool
  | .captionFetch _ => true
  | .transcribe _ => true
  | .rssTranscriptFetch => true
  | .summarizeCall => true
  | _ => false

/-- Outcome of the yt-dlp subprocess plus VTT file read inside the `try` of
`fetchCaptionsWithYtDlp`: the raw file contents on success, or a throw
with or without a `stderr` payload. -/
inductive YtOutcome
  | fileText (raw : String)
  | procError (stderr : String)
  | otherError

/-- What the podcast directory lookup plus feed fetch/parse of
`parsePodcastUrl` yields for the matched episode. -/
structure FeedInfo where
  title : String
  author : String
  audioUrl : String
deriving DecidableEq

/-- Environment of external outcomes for one run.  Functions of the input
make the oracle deterministic, so two runs in the same environment see
the same outside world. -/
structure Env where
  ytdlp : YtOutcome
  oembedTitle : Except String String
  transcribe : String → Except String String
  summarize : String → Except String String
  feedLookup : Except String (Option FeedInfo)
  rssTranscript : Option String

/-- youtube.ts lines 36-90, `fetchCaptionsWithYtDlp`: `.error` is a throw,
`.ok none` is the soft-failure `null`, `.ok (some t)` a transcript.  An
empty processed transcript is returned as `null` (`transcript || null`). -/
def fetchCaptionsWithYtDlp (env : Env) : Except String (Option String) :=
  match env.ytdlp with
  | .fileText raw =>
    let transcript := vttToText raw
    .ok (if transcript = "" then none else some transcript)
  | .procError stderr =>
    if strIncludes stderr "live event will begin" then
      .error "Cannot process upcoming live streams. Please wait until the stream has started and finished."
    else if strIncludes stderr "This video is unavailable" then
      .error "Video is unavailable or private."
    else .ok none
  | .otherError => .ok none

/-- `SELECT * FROM content WHERE content_id = ? AND content_type = ?`. -/
def dbLookup : DB → String → String → Option ContentRow
  | [], _, _ => none
  | r :: rs, cid, ct =>
    if r.content_id = cid ∧ r.content_type = ct then some r else dbLookup rs cid ct

/-- The row object a hit returns, with the given transcript field value. -/
def rowToData (r : ContentRow) (t : TVal) : ContentData :=
  ⟨r.content_id, r.content_type, r.title, r.author, r.audio_url, t, r.summary⟩

/-- youtube.ts lines 262-300, `parsePodcastUrl`: `.ok none` is the `null`
returns (no `/id<digits>` match, no feed URL), `.error` a network throw. -/
def parsePodcastUrl (env : Env) (url : String) :
    Except String (Option (String × String × FeedInfo)) :=
  match urlIdMatch url with
  | none => .ok none
  | some podcastId =>
    let episodeId := urlEpisodeMatch url
    match env.feedLookup with
    | .error e => .error e
    | .ok none => .ok none
    | .ok (some f) =>
      .ok (some (podcastId, (if episodeId = "" then f.title else episodeId), f))

/-- youtube.ts lines 240-255: after the video transcript is acquired —
await the title, summarize, compress, insert, resolve. -/
def afterTranscript (env : Env) (db : DB) (videoId t : String) (ev : List Event) :
    Except String ContentData × DB × List Event :=
  match env.oembedTitle with
  | .error e => (.error e, db, ev)
  | .ok title =>
    match env.summarize t with
    | .error e => (.error e, db, ev ++ [.summarizeCall])
    | .ok summary =>
      (.ok ⟨videoId, "youtube", title, "", none, .str t, summary⟩,
       db ++ [⟨videoId, "youtube", title, "", none, zip t, summary⟩],
       ev ++ [.summarizeCall, .dbInsert videoId])

/-- youtube.ts lines 217-256: the video branch of `getOrCreateTranscript`. -/
def videoPath (env : Env) (db : DB) (url videoId : String) :
    Except String ContentData × DB × List Event :=
  match dbLookup db videoId "youtube" with
  | some r => (.ok (rowToData r (.str (unzip r.transcript))), db, [])
  | none =>
    match fetchCaptionsWithYtDlp env with
    | .error e => (.error e, db, [.titleFetch videoId, .captionFetch videoId])
    | .ok (some t) =>
      afterTranscript env db videoId t [.titleFetch videoId, .captionFetch videoId]
    | .ok none =>
      match env.transcribe url with
      | .error e =>
        (.error ("Transcriber failed: " ++ e), db,
         [.titleFetch videoId, .captionFetch videoId, .transcribe url])
      | .ok t =>
        afterTranscript env db videoId t
          [.titleFetch videoId, .captionFetch videoId, .transcribe url]

/-- youtube.ts lines 347-371: after the podcast transcript is acquired. -/
def afterPodcast (env : Env) (db : DB) (contentId : String) (info : FeedInfo)
    (epTitle t : String) (ev : List Event) :
    Except String ContentData × DB × List Event :=
  match env.summarize t with
  | .error e => (.error e, db, ev ++ [.summarizeCall])
  | .ok summary =>
    (.ok ⟨contentId, "apple_podcast", epTitle, info.author, some info.audioUrl,
           .str t, summary⟩,
     db ++ [⟨contentId, "apple_podcast", epTitle, info.author, some info.audioUrl,
             zip t, summary⟩],
     ev ++ [.summarizeCall, .dbInsert contentId])

/-- youtube.ts lines 302-371: the podcast branch of `getOrCreateTranscript`.
Note the hit (line 311) returns the stored row without decompressing. -/
def podcastPath (env : Env) (db : DB) (url : String) :
    Except String ContentData × DB × List Event :=
  match parsePodcastUrl env url with
  | .error e => (.error e, db, [.podcastResolve])
  | .ok none => (.error "Invalid podcast URL", db, [.podcastResolve])
  | .ok (some (podcastId, episodeId, f)) =>
    let contentId := "podcast_" ++ podcastId ++ "_episode_" ++ episodeId
    match dbLookup db contentId "apple_podcast" with
    | some r => (.ok (rowToData r (.blob r.transcript)), db, [.podcastResolve])
    | none =>
      match env.rssTranscript with
      | some t =>
        afterPodcast env db contentId f f.title t [.podcastResolve, .rssTranscriptFetch]
      | none =>
        match env.transcribe f.audioUrl with
        | .error e =>
          (.error ("Transcriber failed: " ++ e), db,
           [.podcastResolve, .rssTranscriptFetch, .transcribe f.audioUrl])
        | .ok t =>
          afterPodcast env db contentId f f.title t
            [.podcastResolve, .rssTranscriptFetch, .transcribe f.audioUrl]

/-- youtube.ts lines 212-372, `getOrCreateTranscript`, returning
(result, final content table, event log). -/
def getOrCreateTranscript (env : Env) (db : DB) (url : String) :
    Except String ContentData × DB × List Event :=
  if getVideoId url = "" then podcastPath env db url
  else videoPath env db url (getVideoId url)

/-! ## QA store (youtube.ts lines 151-196) -/

/-- One row of the `qa` table. -/
structure QARow where
  id : Nat
  content_id : String
  question : String
  answer : String
deriving DecidableEq

/-- The SQLite database handle state: the two tables plus the connection's
`foreign_keys` pragma, which governs whether declared FOREIGN KEY
constraints are enforced. -/
structure SqliteState where
  content : List ContentRow
  qa : List QARow
  foreignKeysOn : Bool
deriving DecidableEq

/-- youtube.ts lines 151-182, `initDb`: creates the two tables.  The `qa`
table declares `FOREIGN KEY (content_id) REFERENCES content(content_id)`,
but SQLite enforces foreign keys only on connections that issue
`PRAGMA foreign_keys = ON`; `initDb` never issues it (its pragma block is
commented out) and SQLite's documented default is OFF, so the connection
state carries `foreignKeysOn := false`. -/
def initDb : SqliteState :=
  ⟨[], [], false⟩

/-- `INSERT INTO qa (content_id, question, answer) VALUES (?, ?, ?)` under
SQLite semantics: the declared foreign key is checked only when
`foreign_keys` is enabled on the connection. -/
def qaInsert (st : SqliteState) (cid q a : String) : Except String SqliteState :=
  if st.foreignKeysOn && !(st.content.any (fun r => r.content_id == cid)) then
    .error "FOREIGN KEY constraint failed"
  else
    .ok ⟨st.content, st.qa ++ [⟨st.qa.length + 1, cid, q, a⟩], st.foreignKeysOn⟩

/-- youtube.ts lines 185-196, `storeQA`. -/
def storeQA (st : SqliteState) (contentId question answer : String) :
    Except String SqliteState :=
  qaInsert st contentId question answer

/-! ## Concrete instances used by witnesses and counterexamples -/

/-- A YouTube watch URL. -/
def uWatch : String := "https://youtube.com/watch?v=abc12345678"

/-- An Apple Podcasts episode URL (no 11-character token precedes the
`/id…` segment). -/
def uPod : String := "https://podcasts.apple.com/us/podcast/x/id123?i=456"

/-- An Apple Podcasts show URL whose slug supplies an 11-character token
before the `/id…` segment. -/
def uSlug : String := "https://podcasts.apple.com/us/podcast/optimal-living-daily/id1200361736"

/-- An Apple Podcasts show URL whose slug is too short to match, so the
`/id…` segment itself matches. -/
def uDaily : String := "https://podcasts.apple.com/us/podcast/the-daily/id1200361736"

/-- An environment where every external step succeeds (captions found). -/
def envOk : Env :=
  ⟨.fileText "WEBVTT\nhi there", .ok "Title", fun _ => .ok "tr", fun _ => .ok "S",
   .ok (some ⟨"T", "A", "http://a.mp3"⟩), some "hello cache"⟩

/-- An environment where only the oEmbed title fetch fails. -/
def envTitleFail : Env :=
  ⟨.fileText "WEBVTT\nhi there", .error "net down", fun _ => .ok "tr", fun _ => .ok "S",
   .ok (some ⟨"T", "A", "http://a.mp3"⟩), some "hello cache"⟩

/-- An environment where yt-dlp fails with the upcoming-live-stream stderr. -/
def envLive : Env :=
  ⟨.procError "ERROR: This live event will begin in a few hours", .ok "Title",
   fun _ => .ok "tr", fun _ => .ok "S", .ok none, none⟩

/-- The `ContentData` a fresh run on `uPod` under `envOk` resolves with. -/
def d1Pod : ContentData :=
  ⟨"podcast_123_episode_456", "apple_podcast", "T", "A", some "http://a.mp3",
   .str "hello cache", "S"⟩

/-- The row that run inserts (transcript compressed). -/
def rowPod : ContentRow :=
  ⟨"podcast_123_episode_456", "apple_podcast", "T", "A", some "http://a.mp3",
   zip "hello cache", "S"⟩

/-- The event log of that run. -/
def ev1Pod : List Event :=
  [.podcastResolve, .rssTranscriptFetch, .summarizeCall,
   .dbInsert "podcast_123_episode_456"]

/-- The characters of `uDaily` before its `/id…` segment. -/
def preDaily : List Char := "https://podcasts.apple.com/us/podcast/the-daily".data

/-- The first nine digits after `/id` in `uDaily`. -/
def dsDaily : List Char := "120036173".data

/-- The characters of `uDaily` after those nine digits. -/
def postDaily : List Char := "6".data

/-- A rate-limit-shaped error (message contains "Rate limit"). -/
def eRL : JsError := ⟨"Rate limit", none, none, none⟩

/-- A non-rate-limit error. -/
def eNR : JsError := ⟨"boom", none, none, none⟩

/-! ## Round trip of the compression wrappers -/

theorem utf8DecodeList_encodeChar (c : Char) (rest : List Nat) :
    utf8DecodeList (utf8EncodeChar c.toNat ++ rest) = c :: utf8DecodeList rest := by
  have hv : c.toNat < 0xd800 ∨ (0xdfff < c.toNat ∧ c.toNat < 0x110000) := c.valid
  have hofn : Char.ofNat c.toNat = c := Char.ofNat_toNat c
  by_cases h1 : c.toNat < 0x80
  · have he : utf8EncodeChar c.toNat = [c.toNat] := by
      simp only [utf8EncodeChar, if_pos h1]
    rw [he, List.cons_append, List.nil_append, utf8DecodeList.eq_2, if_pos h1, hofn]
  · by_cases h2 : c.toNat < 0x800
    · have he : utf8EncodeChar c.toNat =
          [0xC0 + c.toNat / 0x40, 0x80 + c.toNat % 0x40] := by
        simp only [utf8EncodeChar, if_neg h1, if_pos h2]
      rw [he, List.cons_append, List.cons_append, List.nil_append, utf8DecodeList.eq_2,
        if_neg (by omega), if_pos (by omega)]
      simp only [List.headD_cons, List.drop_succ_cons, List.drop_zero]
      have harg : (0xC0 + c.toNat / 0x40 - 0xC0) * 0x40 +
          (0x80 + c.toNat % 0x40 - 0x80) = c.toNat := by omega
      rw [harg, hofn]
    · by_cases h3 : c.toNat < 0x10000
      · have he : utf8EncodeChar c.toNat =
            [0xE0 + c.toNat / 0x1000, 0x80 + (c.toNat / 0x40) % 0x40,
             0x80 + c.toNat % 0x40] := by
          simp only [utf8EncodeChar, if_neg h1, if_neg h2, if_pos h3]
        rw [he]
        simp only [List.cons_append, List.nil_append]
        rw [utf8DecodeList.eq_2, if_neg (by omega), if_neg (by omega), if_pos (by omega)]
        simp only [List.headD_cons, List.drop_succ_cons, List.drop_zero]
        have harg : (0xE0 + c.toNat / 0x1000 - 0xE0) * 0x1000 +
            (0x80 + c.toNat / 0x40 % 0x40 - 0x80) * 0x40 +
            (0x80 + c.toNat % 0x40 - 0x80) = c.toNat := by omega
        rw [harg, hofn]
      · have he : utf8EncodeChar c.toNat =
            [0xF0 + c.toNat / 0x40000, 0x80 + (c.toNat / 0x1000) % 0x40,
             0x80 + (c.toNat / 0x40) % 0x40, 0x80 + c.toNat % 0x40] := by
          simp only [utf8EncodeChar, if_neg h1, if_neg h2, if_neg h3]
        rw [he]
        simp only [List.cons_append, List.nil_append]
        rw [utf8DecodeList.eq_2, if_neg (by omega), if_neg (by omega), if_neg (by omega)]
        simp only [List.headD_cons, List.drop_succ_cons, List.drop_zero]
        have harg : (0xF0 + c.toNat / 0x40000 - 0xF0) * 0x40000 +
            (0x80 + c.toNat / 0x1000 % 0x40 - 0x80) * 0x1000 +
            (0x80 + c.toNat / 0x40 % 0x40 - 0x80) * 0x40 +
            (0x80 + c.toNat % 0x40 - 0x80) = c.toNat := by omega
        rw [harg, hofn]

theorem utf8DecodeList_encodeList (l : List Char) :
    utf8DecodeList ((l.map (fun c => utf8EncodeChar c.toNat)).flatten) = l := by
  induction l with
  | nil => simp only [List.map_nil, List.flatten_nil, utf8DecodeList]
  | cons c cs ih =>
    simp only [List.map_cons, List.flatten_cons]
    rw [utf8DecodeList_encodeChar, ih]

theorem textDecode_textEncode (s : String) : textDecode (textEncode s) = s := by
  cases s with
  | mk data => simp only [textDecode, textEncode, utf8DecodeList_encodeList]

/-- The repository's compression wrappers are inverse: decompressing the
compression of any transcript string reproduces it exactly. -/
theorem unzip_zip (t : String) : unzip (zip t) = t := by
  simp only [zip, unzip, gzipSync, gunzipSync, List.drop_succ_cons, List.drop_zero,
    textDecode_textEncode]

/-! ## The chunking loop never finishes on an over-budget transcript -/

/-- Once `start < words.length` and the word count exceeds the budget, every
iteration of the `while` loop recurses: the stepped offset
`end - CHUNK_OVERLAP_WORDS` is always at most `words.length - 200`, so the
`break` guard `start >= words.length` never fires and the loop never
returns, whatever the fuel. -/
theorem chunkLoop_none (words : List String)
    (hlen : MAX_WORDS_PER_CHUNK < words.length) :
    ∀ fuel start chunks, start < words.length →
      chunkLoop words fuel start chunks = none := by
  have hM : MAX_WORDS_PER_CHUNK = 15000 := rfl
  have hO : CHUNK_OVERLAP_WORDS = 200 := rfl
  intro fuel
  induction fuel with
  | zero => intro start chunks _; rfl
  | succ n ih =>
    intro start chunks hs
    simp only [chunkLoop, if_pos hs]
    have hstep : ¬ min (start + MAX_WORDS_PER_CHUNK) words.length -
        CHUNK_OVERLAP_WORDS ≥ words.length := by
      rw [hM] at hlen ⊢
      rw [hO]
      omega
    rw [if_neg hstep]
    apply ih
    rw [hM] at hlen ⊢
    rw [hO]
    omega

/-- For any transcript whose whitespace-word count exceeds the budget,
`chunkTranscript` runs out of any amount of fuel: the source loop diverges. -/
theorem chunkTranscript_none_of_long (t : String) (fuel : Nat)
    (h : MAX_WORDS_PER_CHUNK < (splitWs t).length) :
    chunkTranscript fuel t = none := by
  simp only [chunkTranscript, if_neg (Nat.not_le.mpr h)]
  exact chunkLoop_none (splitWs t) h fuel 0 [] (by
    have hM : MAX_WORDS_PER_CHUNK = 15000 := rfl
    rw [hM] at h
    omega)

theorem splitWsSkip_wRep (n : Nat) :
    splitWsSkip (wRep n) = List.replicate (n + 1) "w" := by
  induction n with
  | zero => rfl
  | succ m ih =>
    show splitWsSkip ('w' :: ' ' :: wRep m) = _
    rw [splitWsSkip]
    simp only [jsWs]
    norm_num
    rw [splitWsGo]
    simp only [jsWs]
    norm_num
    rw [ih]
    rfl

theorem splitWsGo_wRep (n : Nat) :
    splitWsGo (wRep n) [] = List.replicate (n + 1) "w" := by
  cases n with
  | zero => rfl
  | succ m =>
    show splitWsGo ('w' :: ' ' :: wRep m) [] = _
    rw [splitWsGo]
    simp only [jsWs]
    norm_num
    rw [splitWsGo]
    simp only [jsWs]
    norm_num
    rw [splitWsSkip_wRep]
    rfl

theorem splitWs_t15001 : (splitWs t15001).length = 15001 := by
  show (splitWsGo (wRep 15000) []).length = 15001
  rw [splitWsGo_wRep, List.length_replicate]

theorem splitWs_t20000 : (splitWs t20000).length = 20000 := by
  show (splitWsGo (wRep 19999) []).length = 20000
  rw [splitWsGo_wRep, List.length_replicate]

/-- C1: the claim says `chunkTranscript` terminates with a finite chunk list
for every transcript over the 15,000-word budget.  The code does the
opposite: for every such transcript the loop never finishes, because the
stepped start offset `end - 200` always stays below `words.length`, so the
`break` never fires (modelled as running out of any amount of fuel). -/
theorem c1_chunkTranscript_diverges_on_long_input (t : String) (fuel : Nat)
    (h : MAX_WORDS_PER_CHUNK < (splitWs t).length) :
    chunkTranscript fuel t = none :=
  chunkTranscript_none_of_long t fuel h

/-- Witness for C1 at a concrete 15,001-word transcript. -/
theorem c1_witness :
    MAX_WORDS_PER_CHUNK < (splitWs t15001).length ∧
      chunkTranscript 1000 t15001 = none :=
  have h : MAX_WORDS_PER_CHUNK < (splitWs t15001).length := by
    rw [splitWs_t15001]; decide
  ⟨h, c1_chunkTranscript_diverges_on_long_input t15001 1000 h⟩

/-- C2: the claim says a 20,000-word transcript yields exactly 2 chunks
(the second starting at word 14,800).  On the code, the first two loop
iterations do produce those chunks, but the loop then never exits —
`start` is reset to `20000 - 200` forever — so `chunkTranscript` diverges
instead of returning 2 chunks (modelled as running out of any fuel). -/
theorem c2_chunkTranscript_20000_diverges :
    (splitWs t20000).length = 20000 ∧ ∀ fuel, chunkTranscript fuel t20000 = none :=
  ⟨splitWs_t20000, fun fuel => chunkTranscript_none_of_long t20000 fuel
    (by rw [splitWs_t20000]; decide)⟩

/-- C5: compression round trip, exactly as the spec states it. -/
theorem c5_unzip_zip_roundtrip (t : String) : unzip (zip t) = t :=
  unzip_zip t

/-! ## Retry governor bounds -/

/-- When every attempt fails with a rate-limit error, the loop starting at
`attempt` performs the remaining `maxRetries - attempt` invocations and
ends in a wrapped provider error. -/
theorem retryFromAttempt_rateLimited {α} (op : Nat → Except JsError α)
    (maxRetries : Nat)
    (hop : ∀ n, ∃ e, op n = .error e ∧ isRateLimitError e = true) :
    ∀ k attempt lastErr, maxRetries - attempt = k + 1 →
      (retryFromAttempt op maxRetries attempt lastErr).2 = k + 1 ∧
      ∃ d, (retryFromAttempt op maxRetries attempt lastErr).1 =
        .error (.wrapped d) := by
  intro k
  induction k with
  | zero =>
    intro attempt lastErr hk
    have hlt : attempt < maxRetries := by omega
    obtain ⟨e, hoe, hrl⟩ := hop attempt
    have hbeq : (attempt == maxRetries - 1) = true := by
      simp only [beq_iff_eq]
      omega
    rw [retryFromAttempt.eq_def, dif_pos hlt, hoe]
    constructor
    · simp [hrl, hbeq]
    · exact ⟨"Gemini API Error: " ++ errorDetails e, by simp [hrl, hbeq]⟩
  | succ m ih =>
    intro attempt lastErr hk
    have hlt : attempt < maxRetries := by omega
    obtain ⟨e, hoe, hrl⟩ := hop attempt
    have hbeq : (attempt == maxRetries - 1) = false := by
      simp only [beq_eq_false_iff_ne, ne_eq]
      omega
    rw [retryFromAttempt.eq_def, dif_pos hlt, hoe]
    obtain ⟨hcount, d, hres⟩ := ih (attempt + 1) (some e) (by omega)
    constructor
    · simp [hrl, hbeq, hcount]
    · exact ⟨d, by simp [hrl, hbeq, hres]⟩

/-- C4: a wrapped operation failing with a rate-limit error on every attempt
is invoked exactly `maxRetries` times, after which `retryWithBackoff`
raises a wrapped provider error; a wrapped operation whose first failure
is not a rate-limit error is invoked exactly once, and the wrapped
provider error carrying its message is raised immediately. -/
theorem c4_retryWithBackoff_bounds {α} (op : Nat → Except JsError α)
    (maxRetries : Nat) (hpos : 1 ≤ maxRetries) :
    ((∀ n, ∃ e, op n = .error e ∧ isRateLimitError e = true) →
      (retryWithBackoff op maxRetries).2 = maxRetries ∧
      ∃ d, (retryWithBackoff op maxRetries).1 = .error (.wrapped d)) ∧
    (∀ e, op 0 = .error e → isRateLimitError e = false →
      (retryWithBackoff op maxRetries).2 = 1 ∧
      (retryWithBackoff op maxRetries).1 =
        .error (.wrapped ("Gemini API Error: " ++ errorDetails e))) := by
  constructor
  · intro hop
    have h := retryFromAttempt_rateLimited op maxRetries hop (maxRetries - 1) 0 none
      (by omega)
    rw [retryWithBackoff]
    obtain ⟨hc, d, hr⟩ := h
    exact ⟨by rw [hc]; omega, d, hr⟩
  · intro e hoe hrl
    rw [retryWithBackoff, retryFromAttempt.eq_def, dif_pos (by omega : 0 < maxRetries), hoe]
    constructor <;> simp [hrl]

/-- Witness for C4: at `maxRetries = 3`, the always-rate-limited operation is
invoked 3 times and the non-rate-limited one once, both ending in wrapped
provider errors. -/
theorem c4_witness :
    (1 ≤ 3 ∧
      (retryWithBackoff (fun (_ : Nat) => Except.error (α := Unit) eRL) 3).2 = 3) ∧
    (retryWithBackoff (fun (_ : Nat) => Except.error (α := Unit) eNR) 3).2 = 1 ∧
    (retryWithBackoff (fun (_ : Nat) => Except.error (α := Unit) eNR) 3).1 =
      .error (.wrapped "Gemini API Error: boom") := by
  have h1 := (c4_retryWithBackoff_bounds (fun (_ : Nat) => Except.error (α := Unit) eRL)
    3 (by decide)).1 (fun n => ⟨eRL, rfl, by decide⟩)
  have h2 := (c4_retryWithBackoff_bounds (fun (_ : Nat) => Except.error (α := Unit) eNR)
    3 (by decide)).2 eNR rfl (by decide)
  exact ⟨⟨by decide, h1.1⟩, h2.1, h2.2⟩

/-! ## QA foreign key -/

/-- C9: the claim says appending a QA record with a dangling `content_id`
fails.  On the code it succeeds: the `qa` schema declares the foreign key,
but the connection never enables `PRAGMA foreign_keys` (SQLite's default
is OFF), so the insert silently creates a QARecord whose reference has no
matching content row. -/
theorem c9_storeQA_dangling_insert_succeeds :
    initDb.content = [] ∧
    storeQA initDb "missing" "q" "a" =
      .ok ⟨[], [⟨1, "missing", "q", "a"⟩], false⟩ :=
  ⟨rfl, rfl⟩

/-! ## Identity resolver misclassification -/

theorem scanFirst_isSome (f : List Char → Option String) (l1 l2 : List Char)
    (h : (f l2).isSome) : (scanFirst f (l1 ++ l2)).isSome := by
  induction l1 with
  | nil =>
    simp only [List.nil_append]
    cases l2 with
    | nil => exact h
    | cons c cs =>
      rw [scanFirst]
      cases hf : f (c :: cs) with
      | some r => simp
      | none => rw [hf] at h; simp at h
  | cons c l1' ih =>
    rw [List.cons_append, scanFirst]
    cases hf : f (c :: (l1' ++ l2)) with
    | some r => simp
    | none => exact ih

theorem scanFirst_some_src (f : List Char → Option String) :
    ∀ l s, scanFirst f l = some s → ∃ cs, f cs = some s := by
  intro l
  induction l with
  | nil => intro s h; rw [scanFirst] at h; exact ⟨[], h⟩
  | cons c cs ih =>
    intro s h
    rw [scanFirst] at h
    cases hf : f (c :: cs) with
    | some r =>
      rw [hf] at h
      simp only [] at h
      exact ⟨c :: cs, hf.trans h⟩
    | none => rw [hf] at h; exact ih s h

theorem take11_some_ne_empty (cs : List Char) (s : String) (h : take11 cs = some s) :
    s ≠ "" := by
  simp only [take11] at h
  by_cases hc : ((cs.take 11).length = 11 && (cs.take 11).all isIdChar) = true
  · rw [if_pos hc] at h
    have hs : s = String.mk (cs.take 11) := (Option.some.inj h).symm
    have hl : (cs.take 11).length = 11 := by
      have hc' := hc
      simp only [Bool.and_eq_true, decide_eq_true_eq] at hc'
      exact hc'.1
    subst hs
    intro hemp
    have hdata : cs.take 11 = [] := congrArg String.data hemp
    rw [hdata] at hl
    simp at hl
  · rw [if_neg hc] at h
    cases h

theorem vidMatchAt_some_ne_empty :
    ∀ cs s, vidMatchAt cs = some s → s ≠ "" := by
  intro cs s h
  unfold vidMatchAt at h
  split at h
  · exact take11_some_ne_empty _ _ h
  · exact take11_some_ne_empty _ _ h
  · cases h

theorem vidMatchAt_slash (rest : List Char) :
    vidMatchAt ('/' :: rest) = take11 rest := rfl

theorem take11_id_digits (ds post : List Char) (hlen : ds.length = 9)
    (hdig : ∀ c ∈ ds, c.isDigit) :
    (take11 ('i' :: 'd' :: (ds ++ post))).isSome := by
  have h1 : ('i' :: 'd' :: (ds ++ post)).take 11 = 'i' :: 'd' :: ((ds ++ post).take 9) :=
    rfl
  have htake : ('i' :: 'd' :: (ds ++ post)).take 11 = 'i' :: 'd' :: ds := by
    rw [h1, List.take_left' hlen]
  have hlen11 : (('i' :: 'd' :: ds).length = 11) := by simp [hlen]
  have hall : (('i' :: 'd' :: ds).all isIdChar) = true := by
    simp only [List.all_cons, Bool.and_eq_true, List.all_eq_true]
    refine ⟨by decide, by decide, fun c hc => ?_⟩
    have hd := hdig c hc
    simp [isIdChar, Char.isAlphanum, hd]
  simp only [take11, htake, hlen11, hall]
  simp

theorem getVideoId_ne_empty_of_id_segment (url : String) (pre ds post : List Char)
    (hurl : url.data = pre ++ '/' :: 'i' :: 'd' :: (ds ++ post))
    (hlen : ds.length = 9) (hdig : ∀ c ∈ ds, c.isDigit) :
    getVideoId url ≠ "" := by
  unfold getVideoId
  have hsome : (scanFirst vidMatchAt url.data).isSome := by
    rw [hurl]
    exact scanFirst_isSome _ pre _
      (by rw [vidMatchAt_slash]; exact take11_id_digits ds post hlen hdig)
  obtain ⟨s, hs⟩ := Option.isSome_iff_exists.mp hsome
  rw [hs]
  obtain ⟨cs, hcs⟩ := scanFirst_some_src _ _ _ hs
  exact vidMatchAt_some_ne_empty cs s hcs

/-- The video branch performs no podcast resolution, whatever the outcomes. -/
theorem videoPath_no_podcastResolve (env : Env) (db : DB) (url vid : String) :
    Event.podcastResolve ∉ (videoPath env db url vid).2.2 := by
  unfold videoPath afterTranscript
  repeat' split
  all_goals simp

/-- C10 (amended): for every URL whose path contains `/id` followed by at
least nine digits, `getVideoId` finds an 11-character match — the
`/id<digits>` segment itself matches, though an earlier 11-character path
token may be the one captured — so the result is non-empty, the video
branch of `getOrCreateTranscript` is taken, and podcast resolution is
never attempted. -/
theorem c10_podcast_url_misclassified_as_video (env : Env) (db : DB) (url : String)
    (pre ds post : List Char)
    (hurl : url.data = pre ++ '/' :: 'i' :: 'd' :: (ds ++ post))
    (hlen : ds.length = 9) (hdig : ∀ c ∈ ds, c.isDigit) :
    getVideoId url ≠ "" ∧
    Event.podcastResolve ∉ (getOrCreateTranscript env db url).2.2 := by
  have hne := getVideoId_ne_empty_of_id_segment url pre ds post hurl hlen hdig
  refine ⟨hne, ?_⟩
  unfold getOrCreateTranscript
  rw [if_neg hne]
  exact videoPath_no_podcastResolve env db url (getVideoId url)

/-- Witness for C10 at a concrete Apple Podcasts URL whose matched token is
the `/id…` segment itself. -/
theorem c10_witness :
    uDaily.data = preDaily ++ '/' :: 'i' :: 'd' :: (dsDaily ++ postDaily) ∧
    dsDaily.length = 9 ∧ (∀ c ∈ dsDaily, c.isDigit) ∧
    (getVideoId uDaily ≠ "" ∧
      Event.podcastResolve ∉ (getOrCreateTranscript envOk [] uDaily).2.2) ∧
    getVideoId uDaily = "id120036173" :=
  ⟨rfl, rfl, by decide,
   c10_podcast_url_misclassified_as_video envOk [] uDaily preDaily dsDaily postDaily
     rfl rfl (by decide), rfl⟩

/-- Counterexample for C10 as stated: this Apple Podcasts URL has a
`/id<ten digits>` segment, yet the captured 11-character token is the
show-slug prefix `optimal-liv`, not a token beginning `id`. -/
theorem c10_counterexample :
    strIncludes uSlug "/id1200361736" = true ∧
    getVideoId uSlug = "optimal-liv" ∧
    (getVideoId uSlug).take 2 ≠ "id" :=
  ⟨rfl, rfl, by decide⟩

/-! ## Error handling of the acquisition flow -/

/-- C8: when caption extraction fails with the live-stream stderr signal,
`getOrCreateTranscript` raises the upcoming-live-stream error, the
transcription fallback is never invoked, and the cache is unchanged. -/
theorem c8_live_stream_error_skips_transcription (env : Env) (db : DB) (url : String)
    (hvid : getVideoId url ≠ "")
    (hmiss : dbLookup db (getVideoId url) "youtube" = none)
    (std : String) (hyt : env.ytdlp = .procError std)
    (hlive : strIncludes std "live event will begin" = true) :
    (getOrCreateTranscript env db url).1 =
      .error "Cannot process upcoming live streams. Please wait until the stream has started and finished." ∧
    (∀ loc, Event.transcribe loc ∉ (getOrCreateTranscript env db url).2.2) ∧
    (getOrCreateTranscript env db url).2.1 = db := by
  have hcap : fetchCaptionsWithYtDlp env =
      .error "Cannot process upcoming live streams. Please wait until the stream has started and finished." := by
    unfold fetchCaptionsWithYtDlp
    rw [hyt]
    simp [hlive]
  unfold getOrCreateTranscript
  rw [if_neg hvid]
  unfold videoPath
  rw [hmiss, hcap]
  simp

/-- Witness for C8 at a concrete URL and a concrete live-stream stderr. -/
theorem c8_witness :
    getVideoId uWatch ≠ "" ∧
    strIncludes "ERROR: This live event will begin in a few hours"
      "live event will begin" = true ∧
    (getOrCreateTranscript envLive [] uWatch).1 =
      .error "Cannot process upcoming live streams. Please wait until the stream has started and finished." ∧
    ∀ loc, Event.transcribe loc ∉ (getOrCreateTranscript envLive [] uWatch).2.2 :=
  have h := c8_live_stream_error_skips_transcription envLive [] uWatch (by decide) rfl
    "ERROR: This live event will begin in a few hours" rfl rfl
  ⟨by decide, rfl, h.1, h.2.1⟩

/-- C7 (amended): when the acquisition chain succeeds but the oEmbed title
fetch fails, the failure propagates out of `getOrCreateTranscript` — no
transcript/summary is returned, the title is not defaulted, and nothing is
written to the cache. -/
theorem c7_title_failure_fails_acquisition (env : Env) (db : DB) (url : String)
    (hvid : getVideoId url ≠ "")
    (hmiss : dbLookup db (getVideoId url) "youtube" = none)
    (te t : String) (hti : env.oembedTitle = .error te)
    (hchain : fetchCaptionsWithYtDlp env = .ok (some t) ∨
      (fetchCaptionsWithYtDlp env = .ok none ∧ env.transcribe url = .ok t)) :
    (getOrCreateTranscript env db url).1 = .error te ∧
    (getOrCreateTranscript env db url).2.1 = db := by
  unfold getOrCreateTranscript
  rw [if_neg hvid]
  unfold videoPath afterTranscript
  rcases hchain with hcap | ⟨hcap, htr⟩
  · rw [hmiss, hcap, hti]
    simp
  · rw [hmiss, hcap, htr, hti]
    simp

/-- Witness for C7's amended statement at a concrete environment where only
the title fetch fails. -/
theorem c7_witness :
    getVideoId uWatch ≠ "" ∧
    envTitleFail.oembedTitle = .error "net down" ∧
    (getOrCreateTranscript envTitleFail [] uWatch).1 = .error "net down" ∧
    (getOrCreateTranscript envTitleFail [] uWatch).2.1 = [] :=
  have h := c7_title_failure_fails_acquisition envTitleFail [] uWatch (by decide) rfl
    "net down" "hi there" rfl (Or.inl rfl)
  ⟨by decide, rfl, h.1, h.2⟩

/-- Counterexample for C7 as stated: with captions and summarization
succeeding and only the title fetch failing, `getOrCreateTranscript` does
not return the acquired transcript and summary — it raises the title
fetch's error. -/
theorem c7_counterexample :
    (getOrCreateTranscript envTitleFail [] uWatch).1 = .error "net down" :=
  rfl

/-- Along the video branch, either the table is untouched or the run
succeeded. -/
theorem videoPath_db_unchanged_or_ok (env : Env) (db : DB) (url vid : String) :
    (videoPath env db url vid).2.1 = db ∨
    (videoPath env db url vid).1.isOk = true := by
  unfold videoPath afterTranscript
  cases hdb : dbLookup db vid "youtube" with
  | some r => simp [Except.isOk, Except.toBool]
  | none =>
    cases hcap : fetchCaptionsWithYtDlp env with
    | error e => simp
    | ok o =>
      have step : ∀ t ev, ((match env.oembedTitle with
          | Except.error e => (Except.error e, db, ev)
          | Except.ok title =>
            match env.summarize t with
            | Except.error e => (Except.error e, db, ev ++ [Event.summarizeCall])
            | Except.ok summary =>
              (Except.ok ⟨vid, "youtube", title, "", none, TVal.str t, summary⟩,
               db ++ [⟨vid, "youtube", title, "", none, zip t, summary⟩],
               ev ++ [Event.summarizeCall, Event.dbInsert vid]) :
            Except String ContentData × DB × List Event)).2.1 = db ∨
          ((match env.oembedTitle with
          | Except.error e => (Except.error e, db, ev)
          | Except.ok title =>
            match env.summarize t with
            | Except.error e => (Except.error e, db, ev ++ [Event.summarizeCall])
            | Except.ok summary =>
              (Except.ok ⟨vid, "youtube", title, "", none, TVal.str t, summary⟩,
               db ++ [⟨vid, "youtube", title, "", none, zip t, summary⟩],
               ev ++ [Event.summarizeCall, Event.dbInsert vid]) :
            Except String ContentData × DB × List Event)).1.isOk = true := by
        intro t ev
        cases hti : env.oembedTitle with
        | error e => simp
        | ok title =>
          cases hsum : env.summarize t with
          | error e => simp
          | ok s => simp [Except.isOk, Except.toBool]
      cases o with
      | some t => exact step t _
      | none =>
        cases htr : env.transcribe url with
        | error e => simp
        | ok t => exact step t _

/-- Along the podcast branch, either the table is untouched or the run
succeeded. -/
theorem podcastPath_db_unchanged_or_ok (env : Env) (db : DB) (url : String) :
    (podcastPath env db url).2.1 = db ∨
    (podcastPath env db url).1.isOk = true := by
  unfold podcastPath afterPodcast
  cases hp : parsePodcastUrl env url with
  | error e => simp
  | ok o =>
    cases o with
    | none => simp
    | some info =>
      obtain ⟨pid, eid, f⟩ := info
      cases hdb : dbLookup db ("podcast_" ++ pid ++ "_episode_" ++ eid) "apple_podcast" with
      | some r => simp [hdb, Except.isOk, Except.toBool]
      | none =>
        have step : ∀ t ev, ((match env.summarize t with
            | Except.error e => (Except.error e, db, ev ++ [Event.summarizeCall])
            | Except.ok summary =>
              (Except.ok ⟨"podcast_" ++ pid ++ "_episode_" ++ eid, "apple_podcast",
                 f.title, f.author, some f.audioUrl, TVal.str t, summary⟩,
               db ++ [⟨"podcast_" ++ pid ++ "_episode_" ++ eid, "apple_podcast",
                 f.title, f.author, some f.audioUrl, zip t, summary⟩],
               ev ++ [Event.summarizeCall,
                 Event.dbInsert ("podcast_" ++ pid ++ "_episode_" ++ eid)]) :
              Except String ContentData × DB × List Event)).2.1 = db ∨
            ((match env.summarize t with
            | Except.error e => (Except.error e, db, ev ++ [Event.summarizeCall])
            | Except.ok summary =>
              (Except.ok ⟨"podcast_" ++ pid ++ "_episode_" ++ eid, "apple_podcast",
                 f.title, f.author, some f.audioUrl, TVal.str t, summary⟩,
               db ++ [⟨"podcast_" ++ pid ++ "_episode_" ++ eid, "apple_podcast",
                 f.title, f.author, some f.audioUrl, zip t, summary⟩],
               ev ++ [Event.summarizeCall,
                 Event.dbInsert ("podcast_" ++ pid ++ "_episode_" ++ eid)]) :
              Except String ContentData × DB × List Event)).1.isOk = true := by
          intro t ev
          cases hsum : env.summarize t with
          | error e => simp
          | ok s => simp [Except.isOk, Except.toBool]
        cases hrss : env.rssTranscript with
        | some t => simp only [hdb]; exact step t _
        | none =>
          cases htr : env.transcribe f.audioUrl with
          | error e => simp [hdb, htr]
          | ok t => simp only [hdb, htr]; exact step t _

theorem run_db_unchanged_or_ok (env : Env) (db : DB) (url : String) :
    (getOrCreateTranscript env db url).2.1 = db ∨
    (getOrCreateTranscript env db url).1.isOk = true := by
  unfold getOrCreateTranscript
  split
  · exact podcastPath_db_unchanged_or_ok env db url
  · exact videoPath_db_unchanged_or_ok env db url (getVideoId url)

/-- C6: if any step of a run raises an error, no ContentRecord row is
written — the content table after the run equals the table before it.
(The only insert happens after both acquisition and summarization have
succeeded, and the run then resolves successfully.) -/
theorem c6_failed_run_writes_nothing (env : Env) (db : DB) (url : String)
    (e : String) (h : (getOrCreateTranscript env db url).1 = .error e) :
    (getOrCreateTranscript env db url).2.1 = db := by
  rcases run_db_unchanged_or_ok env db url with hdb | hok
  · exact hdb
  · rw [h] at hok
    simp [Except.isOk, Except.toBool] at hok

/-- Witness for C6 at a concrete failing run (invalid locator). -/
theorem c6_witness :
    (getOrCreateTranscript envOk [] "x").1 = .error "Invalid podcast URL" ∧
    (getOrCreateTranscript envOk [] "x").2.1 = [] :=
  ⟨rfl, c6_failed_run_writes_nothing envOk [] "x" "Invalid podcast URL" rfl⟩

/-! ## Idempotent acquisition (cache hits) -/

theorem dbLookup_append_of_none : ∀ (db l2 : DB) (cid ct : String),
    dbLookup db cid ct = none → dbLookup (db ++ l2) cid ct = dbLookup l2 cid ct := by
  intro db
  induction db with
  | nil => intro l2 cid ct _; rfl
  | cons r rs ih =>
    intro l2 cid ct h
    by_cases hc : r.content_id = cid ∧ r.content_type = ct
    · rw [dbLookup, if_pos hc] at h
      cases h
    · rw [dbLookup, if_neg hc] at h
      rw [List.cons_append, dbLookup, if_neg hc]
      exact ih l2 cid ct h

theorem dbLookup_singleton (r : ContentRow) (cid ct : String)
    (h : r.content_id = cid ∧ r.content_type = ct) :
    dbLookup [r] cid ct = some r := by
  rw [dbLookup, if_pos h]

/-- A second video run right after a fresh insert is a pure cache hit: it
returns the inserted row with the transcript decompressed, touches
nothing, and performs no external calls. -/
theorem videoPath_hit_after_insert (env : Env) (db : DB)
    (url vid t title summary : String)
    (hdb : dbLookup db vid "youtube" = none) :
    videoPath env (db ++ [⟨vid, "youtube", title, "", none, zip t, summary⟩]) url vid =
      (.ok ⟨vid, "youtube", title, "", none, .str t, summary⟩,
       db ++ [⟨vid, "youtube", title, "", none, zip t, summary⟩], []) := by
  rw [videoPath, dbLookup_append_of_none db _ vid "youtube" hdb,
    dbLookup_singleton _ _ _ ⟨rfl, rfl⟩]
  simp [rowToData, unzip_zip]

/-- A second podcast run right after a fresh insert is a cache hit that
returns the stored row as-is: the transcript field still holds the
compressed blob. -/
theorem podcastPath_hit_after_insert (env : Env) (db : DB) (url pid eid : String)
    (f : FeedInfo) (t summary : String)
    (hp : parsePodcastUrl env url = .ok (some (pid, eid, f)))
    (hdb : dbLookup db ("podcast_" ++ pid ++ "_episode_" ++ eid) "apple_podcast" = none) :
    podcastPath env
      (db ++ [⟨"podcast_" ++ pid ++ "_episode_" ++ eid, "apple_podcast", f.title,
        f.author, some f.audioUrl, zip t, summary⟩]) url =
      (.ok ⟨"podcast_" ++ pid ++ "_episode_" ++ eid, "apple_podcast", f.title,
        f.author, some f.audioUrl, .blob (zip t), summary⟩,
       db ++ [⟨"podcast_" ++ pid ++ "_episode_" ++ eid, "apple_podcast", f.title,
        f.author, some f.audioUrl, zip t, summary⟩], [.podcastResolve]) := by
  rw [podcastPath, hp]
  simp only []
  rw [dbLookup_append_of_none db _ _ "apple_podcast" hdb,
    dbLookup_singleton _ _ _ ⟨rfl, rfl⟩]
  simp [rowToData]

/-- C3 (amended): after any successful run, a second run with the same
locator in the same environment is a pure cache hit — it performs no
acquisition-chain call (no caption extraction, no transcription, no RSS
transcript fetch, no summarization), writes nothing, and returns the same
record id and the byte-identical summary.  For VIDEO content the returned
`ContentData` is byte-identical to the first run's (the stored transcript
is decompressed on the hit).  For PODCAST content the hit returns the
stored row without decompressing, so a first run that produced transcript
string `s` gets back the compressed blob `zip s` instead of `s`. -/
theorem c3_second_call_is_cache_hit (env : Env) (db : DB) (url : String)
    (d1 : ContentData) (db1 : DB) (ev1 : List Event)
    (h : getOrCreateTranscript env db url = (.ok d1, db1, ev1)) :
    ∃ d2 ev2, getOrCreateTranscript env db1 url = (.ok d2, db1, ev2) ∧
      (∀ e ∈ ev2, isAcquisitionEvent e = false) ∧
      d2.content_id = d1.content_id ∧
      d2.summary = d1.summary ∧
      (getVideoId url ≠ "" → d2 = d1) ∧
      (getVideoId url = "" → ∀ s, d1.transcript = .str s →
        d2.transcript = .blob (zip s)) := by
  by_cases hv : getVideoId url = ""
  · -- podcast branch
    rw [getOrCreateTranscript, if_pos hv] at h
    rw [getOrCreateTranscript, if_pos hv]
    cases hp : parsePodcastUrl env url with
    | error e => rw [podcastPath, hp] at h; simp at h
    | ok o =>
      cases o with
      | none => rw [podcastPath, hp] at h; simp at h
      | some info =>
        obtain ⟨pid, eid, f⟩ := info
        rw [podcastPath, hp] at h
        simp only [] at h
        cases hdb : dbLookup db ("podcast_" ++ pid ++ "_episode_" ++ eid)
            "apple_podcast" with
        | some r =>
          simp only [hdb, Prod.mk.injEq, Except.ok.injEq] at h
          obtain ⟨hd1, hdb1, hev1⟩ := h
          subst hd1
          subst hdb1
          refine ⟨rowToData r (.blob r.transcript), [.podcastResolve], ?_, ?_, rfl, rfl,
            fun hne => absurd hv hne, ?_⟩
          · rw [podcastPath, hp]
            simp only [hdb]
          · intro e he
            simp at he
            subst he
            rfl
          · intro _ s hs
            cases hs
        | none =>
          simp only [hdb] at h
          have step : ∀ (t : String) (ev : List Event),
              afterPodcast env db ("podcast_" ++ pid ++ "_episode_" ++ eid) f f.title t
                ev = (.ok d1, db1, ev1) →
              ∃ d2 ev2, podcastPath env db1 url = (.ok d2, db1, ev2) ∧
                (∀ e ∈ ev2, isAcquisitionEvent e = false) ∧
                d2.content_id = d1.content_id ∧
                d2.summary = d1.summary ∧
                (getVideoId url ≠ "" → d2 = d1) ∧
                (getVideoId url = "" → ∀ s, d1.transcript = .str s →
                  d2.transcript = .blob (zip s)) := by
            intro t ev hstep
            rw [afterPodcast] at hstep
            cases hsum : env.summarize t with
            | error e => simp [hsum] at hstep
            | ok summary =>
              simp only [hsum, Prod.mk.injEq, Except.ok.injEq] at hstep
              obtain ⟨hd1, hdb1, hev1⟩ := hstep
              subst hd1
              subst hdb1
              refine ⟨_, _, podcastPath_hit_after_insert env db url pid eid f t summary
                hp hdb, ?_, rfl, rfl, fun hne => absurd hv hne, ?_⟩
              · intro e he
                simp at he
                subst he
                rfl
              · intro _ s hs
                simp only [TVal.str.injEq] at hs
                subst hs
                rfl
          cases hrss : env.rssTranscript with
          | some t =>
            simp only [hrss] at h
            exact step t _ h
          | none =>
            simp only [hrss] at h
            cases htr : env.transcribe f.audioUrl with
            | error e =>
              simp only [htr] at h
              simp at h
            | ok t =>
              simp only [htr] at h
              exact step t _ h
  · -- video branch
    rw [getOrCreateTranscript, if_neg hv] at h
    rw [getOrCreateTranscript, if_neg hv]
    cases hdb : dbLookup db (getVideoId url) "youtube" with
    | some r =>
      rw [videoPath] at h
      simp only [hdb, Prod.mk.injEq, Except.ok.injEq] at h
      obtain ⟨hd1, hdb1, hev1⟩ := h
      subst hd1
      subst hdb1
      refine ⟨rowToData r (.str (unzip r.transcript)), [], ?_, ?_, rfl, rfl,
        fun _ => rfl, fun habs => absurd habs hv⟩
      · rw [videoPath]
        simp only [hdb]
      · intro e he
        simp at he
    | none =>
      rw [videoPath] at h
      simp only [hdb] at h
      have step : ∀ (t : String) (ev : List Event),
          afterTranscript env db (getVideoId url) t ev = (.ok d1, db1, ev1) →
          ∃ d2 ev2, videoPath env db1 url (getVideoId url) = (.ok d2, db1, ev2) ∧
            (∀ e ∈ ev2, isAcquisitionEvent e = false) ∧
            d2.content_id = d1.content_id ∧
            d2.summary = d1.summary ∧
            (getVideoId url ≠ "" → d2 = d1) ∧
            (getVideoId url = "" → ∀ s, d1.transcript = .str s →
              d2.transcript = .blob (zip s)) := by
        intro t ev hstep
        rw [afterTranscript] at hstep
        cases hti : env.oembedTitle with
        | error e => simp [hti] at hstep
        | ok title =>
          cases hsum : env.summarize t with
          | error e => simp [hti, hsum] at hstep
          | ok summary =>
            simp only [hti, hsum, Prod.mk.injEq, Except.ok.injEq] at hstep
            obtain ⟨hd1, hdb1, hev1⟩ := hstep
            subst hd1
            subst hdb1
            refine ⟨_, _, videoPath_hit_after_insert env db url (getVideoId url)
              t title summary hdb, ?_, rfl, rfl, fun _ => rfl,
              fun habs => absurd habs hv⟩
            intro e he
            simp at he
      cases hcap : fetchCaptionsWithYtDlp env with
      | error e =>
        simp only [hcap] at h
        simp at h
      | ok o =>
        cases o with
        | some t =>
          simp only [hcap] at h
          exact step t _ h
        | none =>
          simp only [hcap] at h
          cases htr : env.transcribe url with
          | error e =>
            simp only [htr] at h
            simp at h
          | ok t =>
            simp only [htr] at h
            exact step t _ h

/-- Witness for C3's amended statement: a fresh podcast run followed by a
hit. -/
theorem c3_witness :
    getOrCreateTranscript envOk [] uPod = (.ok d1Pod, [rowPod], ev1Pod) ∧
    ∃ d2 ev2, getOrCreateTranscript envOk [rowPod] uPod = (.ok d2, [rowPod], ev2) ∧
      (∀ e ∈ ev2, isAcquisitionEvent e = false) ∧
      d2.content_id = d1Pod.content_id ∧
      d2.summary = d1Pod.summary ∧
      (getVideoId uPod ≠ "" → d2 = d1Pod) ∧
      (getVideoId uPod = "" → ∀ s, d1Pod.transcript = .str s →
        d2.transcript = .blob (zip s)) :=
  ⟨rfl, c3_second_call_is_cache_hit envOk [] uPod d1Pod [rowPod] ev1Pod rfl⟩

/-- Counterexample for C3 as stated: for podcast content the second call is
not byte-identical to the first — the first run returns the transcript
string, the hit returns the stored compressed blob (no decompression on
the podcast hit path). -/
theorem c3_counterexample :
    (getOrCreateTranscript envOk [] uPod).1 = .ok d1Pod ∧
    d1Pod.transcript = .str "hello cache" ∧
    (getOrCreateTranscript envOk ((getOrCreateTranscript envOk [] uPod).2.1) uPod).1 =
      .ok ⟨"podcast_123_episode_456", "apple_podcast", "T", "A", some "http://a.mp3",
        .blob (zip "hello cache"), "S"⟩ ∧
    TVal.blob (zip "hello cache") ≠ TVal.str "hello cache" :=
  ⟨rfl, rfl, rfl, by decide⟩

end YTS
